import Mathlib

/-!
Verification development for the Portfolio-Optimizer repository.

The repository's visible surface is the React frontend
(`frontend/src/pages/Optimizer.js`, `Backtesting` page, `Portfolio.js`,
`ModelTraining.js`).  Its client-side request guards, selection-state
updates and result-display transforms are embedded here directly from the
JavaScript source, with JavaScript numbers modelled as exact rationals.
The backend engines (OptimizationEngine, BacktestEngine, AnalysisEngine,
ModelTrainingPipeline) are not part of the repository's sources; where a
property concerns them, the relevant operation is modelled from the
specification text and marked as such in its doc comment.
-/

/-- An asset as held in the frontend selection state (`selectedAssets` in
Optimizer.js and ModelTraining.js): a ticker symbol and a display name. -/
structure Asset where
  symbol : String
  name : String
deriving DecidableEq

/-- Embeds `addAsset` from Optimizer.js (lines 66-71) and ModelTraining.js
(lines 59-68): the asset is appended to the selection only when no already
selected asset has the same symbol (`!selectedAssets.find(a => a.symbol ===
asset.symbol)`); otherwise the selection is returned unchanged. -/
def addAsset (selectedAssets : List Asset) (asset : Asset) : List Asset :=
  if selectedAssets.any (fun a => a.symbol == asset.symbol) then
    selectedAssets
  else
    selectedAssets ++ [asset]

/-- Embeds `removeAsset` from Optimizer.js (lines 73-75) and
ModelTraining.js (lines 70-74): keep the assets whose symbol differs. -/
def removeAsset (selectedAssets : List Asset) (symbol : String) : List Asset :=
  selectedAssets.filter (fun a => a.symbol != symbol)

/-- A user interaction with the selection state: clicking an add button or
a remove button. -/
inductive AssetOp where
  | add (asset : Asset)
  | remove (symbol : String)

/-- Applies one selection-state interaction. -/
def applyOp (selectedAssets : List Asset) : AssetOp → List Asset
  | .add a => addAsset selectedAssets a
  | .remove s => removeAsset selectedAssets s

/-- Applies a sequence of selection-state interactions in order. -/
def applyOps (selectedAssets : List Asset) (ops : List AssetOp) : List Asset :=
  ops.foldl applyOp selectedAssets

/-- Initial `selectedAssets` state of ModelTraining.js (lines 14-18). -/
def modelTrainingInitialAssets : List Asset :=
  [⟨"AAPL", "Apple Inc."⟩, ⟨"MSFT", "Microsoft Corporation"⟩,
   ⟨"GOOGL", "Alphabet Inc."⟩]

/-- Embeds the JavaScript `String.prototype.trim`: leading and trailing
whitespace characters are removed. -/
def jsTrim (s : String) : String :=
  ⟨(((s.data.dropWhile Char.isWhitespace).reverse.dropWhile Char.isWhitespace).reverse : List Char)⟩

/-- Embeds line 20 of the Backtesting page:
`symbols.split(',').map(s => s.trim()).filter(s => s)` applied to the
comma-split tokens of the symbols text field. -/
def parsedSymbols (tokens : List String) : List String :=
  (tokens.map (fun s => jsTrim s)).filter (fun s => s != "")

/-- Embeds line 21 of the Backtesting page:
`weights.split(',').map(w => parseFloat(w.trim())).filter(w => !isNaN(w))`.
Each comma-split token is represented by the result of `parseFloat` on it,
`none` standing for `NaN`; the `filter` drops the `NaN` entries. -/
def parsedWeights (tokens : List (Option ℚ)) : List ℚ :=
  tokens.filterMap id

/-- The body of the `POST /backtest` call issued by the Backtesting page
(lines 46-52). -/
structure BacktestRequest where
  symbols : List String
  weights : List (String × ℚ)
deriving DecidableEq

/-- Embeds the guard chain of `handleRunBacktest` (Backtesting page, lines
19-52).  The three early returns show a toast error and issue no request
and no state change; only when all guards pass is the `POST /backtest`
request built (the weights object pairs each symbol with the weight at the
same index).  Error strings are the toast messages of the source. -/
def handleRunBacktest (symbolTokens : List String) (weightTokens : List (Option ℚ)) :
    Except String BacktestRequest :=
  if (parsedSymbols symbolTokens).length = 0 then
    .error "Enter at least one symbol"
  else if (parsedSymbols symbolTokens).length ≠ (parsedWeights weightTokens).length then
    .error "Number of symbols must match number of weights"
  else if |(parsedWeights weightTokens).sum - 1| > 1 / 100 then
    .error "Weights must sum to 1.0"
  else
    .ok { symbols := parsedSymbols symbolTokens,
          weights := (parsedSymbols symbolTokens).zip (parsedWeights weightTokens) }

/-- The body of the `POST /optimize` call issued by Optimizer.js
(lines 85-92). -/
structure OptimizeRequest where
  symbols : List String
  assetType : String
  startDate : String
  endDate : String
  riskTolerance : ℚ
  rebalanceFreq : String
deriving DecidableEq

/-- Embeds the guard of `handleOptimize` (Optimizer.js, lines 77-100): with
fewer than 2 selected assets a toast error is shown and no request is
issued; otherwise the `POST /optimize` request is built with the selected
symbols. -/
def handleOptimize (selectedAssets : List Asset) (assetType startDate endDate : String)
    (riskTolerance : ℚ) (rebalanceFreq : String) : Except String OptimizeRequest :=
  if selectedAssets.length < 2 then
    .error "Select at least 2 assets"
  else
    .ok { symbols := selectedAssets.map (fun a => a.symbol),
          assetType, startDate, endDate, riskTolerance, rebalanceFreq }

/-- Numeric part of the caller-side rendering of
`analysis.current_portfolio.annualized_return` (Portfolio.js line 546):
the field is multiplied by 100 before formatting. -/
def displayAnnualizedReturn (x : ℚ) : ℚ := x * 100

/-- Numeric part of the caller-side rendering of
`analysis.current_portfolio.annualized_risk` (Portfolio.js line 552):
the field is multiplied by 100 before formatting. -/
def displayAnnualizedRisk (x : ℚ) : ℚ := x * 100

/-- Numeric part of the caller-side rendering of `rec.current_weight`
(Portfolio.js line 614): the field is formatted as received, with no
multiplication by 100 (`rec.current_weight.toFixed(1)`). -/
def displayRecCurrentWeight (x : ℚ) : ℚ := x

/-- Numeric part of the caller-side rendering of `rec.optimal_weight`
(Portfolio.js line 614): formatted as received, no multiplication. -/
def displayRecOptimalWeight (x : ℚ) : ℚ := x

/-- Numeric part of the caller-side rendering of `rec.difference`
(Portfolio.js line 617): formatted as received, no multiplication. -/
def displayRecDifference (x : ℚ) : ℚ := x

/-- Modelled from the spec: the fixed risk-aversion scale λ of the blended
objective of §4.3 (the backend OptimizationEngine is absent from the
repository sources).  The spec leaves the value open but requires it to be
a fixed constant, consistent across runs. -/
def riskAversionScale : ℚ := 2

/-- Modelled from the spec: deterministic per-asset scoring of the absent
backend OptimizationEngine (§4.3).  The score is a function of the asset's
mean return, its covariance row and the risk tolerance only, and is
strictly positive whenever the risk tolerance is non-negative, so that the
normalised weights below satisfy the spec's constraint set (weights sum to
1, each weight in [0,1], long-only).  The quadratic-programming objective
itself is not modelled; the spec requires only determinism and the
constraint contract of the returned weights. -/
def rawScore (t : ℚ) (mean : ℚ) (row : List ℚ) : ℚ :=
  1 / (1 + (row.map (fun x => |x|)).sum) + t * riskAversionScale * max mean 0

/-- Modelled from the spec: `optimize(μ, Σ, riskTolerance) ->
PortfolioWeights` of §4.3 (backend absent from the sources).  Each asset is
given as its mean return paired with its covariance row; the deterministic
positive scores are normalised so the weights sum to exactly 1.  Assets
with identical (μ, Σ) rows receive identical scores, giving the fixed
deterministic tie-break the spec requires. -/
def optimizeWeights (t : ℚ) (assets : List (ℚ × List ℚ)) : List ℚ :=
  (assets.map (fun a => rawScore t a.1 a.2)).map
    (fun r => r / (assets.map (fun a => rawScore t a.1 a.2)).sum)

/-- Modelled from the spec: the aligned date index of §3/§4.1 (backend
ReturnsCalculator absent from the sources): the dates of the first series,
kept when present in every other series.  Dates are modelled as naturals,
prices as rationals. -/
def alignedDates (priceSeries : List (List (ℕ × ℚ))) : List ℕ :=
  match priceSeries with
  | [] => []
  | s :: rest =>
      (s.map Prod.fst).filter (fun d => rest.all (fun s2 => (s2.map Prod.fst).contains d))

/-- Modelled from the spec: price of one series at a date of the aligned
index (0 when absent, which cannot happen on aligned dates). -/
def priceAt (series : List (ℕ × ℚ)) (d : ℕ) : ℚ :=
  ((series.find? (fun p => p.1 == d)).map Prod.snd).getD 0

/-- Modelled from the spec: simple periodic returns of §4.1,
`r_t = price_t / price_(t-1) - 1`, over consecutive entries of a price
path. -/
def seriesReturns (prices : List ℚ) : List ℚ :=
  List.zipWith (fun prev cur => cur / prev - 1) prices prices.tail

/-- Modelled from the spec: the per-period portfolio return of §4.4 under
daily rebalancing to fixed target weights — the weighted sum of the
constituent per-period returns over the aligned date index. -/
def folioReturns (weights : List ℚ) (priceSeries : List (List (ℕ × ℚ))) : List ℚ :=
  let ds := alignedDates priceSeries
  let perSymbol := priceSeries.map (fun s => seriesReturns (ds.map (priceAt s)))
  (List.range (ds.length - 1)).map
    (fun idx => ((weights.zip perSymbol).map (fun p => p.1 * ((p.2[idx]?).getD 0))).sum)

/-- Modelled from the spec: the cumulative value path of §4.4, starting at
1.0 and compounding each per-period return; one value per aligned date. -/
def cumulativeValues (returns : List ℚ) : List ℚ :=
  List.scanl (fun v r => v * (1 + r)) 1 returns

/-- Modelled from the spec: error kinds of §7 relevant to the absent
backend engines. -/
inductive EngineError where
  | insufficientData
deriving DecidableEq

/-- Modelled from the spec: `backtest(weights, priceSeries, ...)` of §4.4
(backend BacktestEngine absent from the sources), returning the cumulative
value series; zero-length (fewer than 2 aligned dates) history fails with
InsufficientData.  Derived scalar statistics are not modelled. -/
def backtest (weights : List ℚ) (priceSeries : List (List (ℕ × ℚ))) :
    Except EngineError (List ℚ) :=
  if (alignedDates priceSeries).length < 2 then
    .error .insufficientData
  else
    .ok (cumulativeValues (folioReturns weights priceSeries))

/-- A rebalancing recommendation as delivered at the
`POST /portfolio/analyze` boundary (§6): weights and difference in
percentage points, per §4.6 and the Recommendation data model of §3. -/
structure Recommendation where
  symbol : String
  action : String
  current_weight : ℚ
  optimal_weight : ℚ
  difference : ℚ
deriving DecidableEq

/-- Modelled from the spec: the per-symbol recommendation emission of the
absent backend AnalysisEngine (§4.6): action is "increase" exactly when
the optimal weight exceeds the current weight, "decrease" otherwise; the
current and optimal weight fractions are delivered in percentage points
and the difference is their absolute difference. -/
def mkRecommendation (symbol : String) (currentFrac optimalFrac : ℚ) : Recommendation :=
  { symbol := symbol
    action := if optimalFrac > currentFrac then "increase" else "decrease"
    current_weight := 100 * currentFrac
    optimal_weight := 100 * optimalFrac
    difference := |100 * optimalFrac - 100 * currentFrac| }

/-- Modelled from the spec: the recommendations list of `analyze` (§4.6),
one per symbol, from the symbol's current and optimal weight fractions. -/
def analyzeRecommendations (perSymbol : List (String × ℚ × ℚ)) : List Recommendation :=
  perSymbol.map (fun p => mkRecommendation p.1 p.2.1 p.2.2)

/-- Per-model test metrics of the training pipeline (§3 ModelResult). -/
structure ModelResult where
  name : String
  test_r2 : ℚ
  test_mse : ℚ
  test_mae : ℚ
deriving DecidableEq

/-- Modelled from the spec: the strict "ranks strictly better" comparison
of §4.5 — higher test R² first, ties broken by lower test MSE, then by
lexicographically smaller model name. -/
def ranksBetter (a b : ModelResult) : Bool :=
  if a.test_r2 ≠ b.test_r2 then decide (b.test_r2 < a.test_r2)
  else if a.test_mse ≠ b.test_mse then decide (a.test_mse < b.test_mse)
  else decide (a.name < b.name)

/-- Modelled from the spec: one comparison step of best-model selection —
the incoming model replaces the incumbent only when it ranks strictly
better. -/
def selectStep (acc : Option ModelResult) (m : ModelResult) : Option ModelResult :=
  match acc with
  | none => some m
  | some b => if ranksBetter m b then some m else some b

/-- Modelled from the spec: best-model selection of the absent backend
ModelTrainingPipeline (§4.5): a fold over the trained models keeping the
one that ranks better. -/
def selectBest (results : List ModelResult) : Option ModelResult :=
  results.foldl selectStep none

/-- Completed-task outcome of the training pipeline (§4.5): the lifecycle
state and the designated best model. -/
structure TrainingOutcome where
  status : String
  best_model : Option ModelResult
deriving DecidableEq

/-- Modelled from the spec: completion of a training task (§4.5) — the
state transitions to "completed" and the best model is designated. -/
def completeTask (results : List ModelResult) : TrainingOutcome :=
  { status := "completed", best_model := selectBest results }

/-! Helper lemmas about the selection state. -/

/-- Adding an asset whose symbol is already selected leaves the selection
unchanged. -/
theorem addAsset_of_mem (sel : List Asset) (a : Asset)
    (h : ∃ b ∈ sel, b.symbol = a.symbol) : addAsset sel a = sel := by
  unfold addAsset
  rw [if_pos]
  rcases h with ⟨b, hb, hsym⟩
  exact List.any_eq_true.2 ⟨b, hb, by simp [hsym]⟩

/-- Adding an asset preserves the no-duplicate-symbols invariant. -/
theorem addAsset_nodup (sel : List Asset) (a : Asset)
    (h : (sel.map (fun x => x.symbol)).Nodup) :
    ((addAsset sel a).map (fun x => x.symbol)).Nodup := by
  unfold addAsset
  split_ifs with hmem
  · exact h
  · have hnot : a.symbol ∉ sel.map (fun x => x.symbol) := by
      intro hx
      rcases List.mem_map.1 hx with ⟨b, hb, hbs⟩
      exact hmem (List.any_eq_true.2 ⟨b, hb, by simp [hbs]⟩)
    rw [List.map_append]
    simp [List.nodup_append, h, hnot]

/-- Removing an asset preserves the no-duplicate-symbols invariant. -/
theorem removeAsset_nodup (sel : List Asset) (s : String)
    (h : (sel.map (fun x => x.symbol)).Nodup) :
    ((removeAsset sel s).map (fun x => x.symbol)).Nodup := by
  unfold removeAsset
  exact ((List.filter_sublist sel).map (fun x => x.symbol)).nodup h

/-- Every interaction preserves the no-duplicate-symbols invariant. -/
theorem applyOp_nodup (sel : List Asset) (op : AssetOp)
    (h : (sel.map (fun x => x.symbol)).Nodup) :
    ((applyOp sel op).map (fun x => x.symbol)).Nodup := by
  cases op with
  | add a => exact addAsset_nodup sel a h
  | remove s => exact removeAsset_nodup sel s h

/-- Any interaction sequence preserves the no-duplicate-symbols
invariant. -/
theorem applyOps_nodup (ops : List AssetOp) :
    ∀ sel : List Asset, (sel.map (fun x => x.symbol)).Nodup →
      ((applyOps sel ops).map (fun x => x.symbol)).Nodup := by
  induction ops with
  | nil => intro sel h; exact h
  | cons op rest ih =>
      intro sel h
      exact ih (applyOp sel op) (applyOp_nodup sel op h)

/-- C10: `addAsset` is idempotent on the selected-asset set — adding an
asset whose symbol is already selected leaves the selection unchanged —
and consequently, starting from the initial selection of Optimizer.js
(empty) or of ModelTraining.js (three distinct defaults), any sequence of
add/remove interactions yields a selection whose symbol list — the list
submitted with optimize and train requests — contains no duplicate
symbols. -/
theorem addAsset_idempotent_no_duplicates :
    (∀ sel a, (∃ b ∈ sel, b.symbol = a.symbol) → addAsset sel a = sel) ∧
    (∀ ops : List AssetOp, ((applyOps [] ops).map (fun x => x.symbol)).Nodup) ∧
    (∀ ops : List AssetOp,
      ((applyOps modelTrainingInitialAssets ops).map (fun x => x.symbol)).Nodup) := by
  refine ⟨addAsset_of_mem, ?_, ?_⟩
  · intro ops
    exact applyOps_nodup ops [] (by simp)
  · intro ops
    exact applyOps_nodup ops modelTrainingInitialAssets (by decide)

/-- Witness for C10 at concrete inputs: re-adding AAPL to a selection that
already holds it changes nothing, and a duplicate-add interaction sequence
still yields duplicate-free submitted symbols. -/
theorem addAsset_idempotent_no_duplicates_witness :
    addAsset [⟨"AAPL", "Apple Inc."⟩] ⟨"AAPL", "Apple"⟩ = [⟨"AAPL", "Apple Inc."⟩] ∧
    ((applyOps [] [AssetOp.add ⟨"AAPL", "Apple Inc."⟩,
        AssetOp.add ⟨"AAPL", "Apple"⟩]).map (fun x => x.symbol)).Nodup :=
  ⟨addAsset_idempotent_no_duplicates.1 [⟨"AAPL", "Apple Inc."⟩] ⟨"AAPL", "Apple"⟩
      ⟨⟨"AAPL", "Apple Inc."⟩, by simp, rfl⟩,
    addAsset_idempotent_no_duplicates.2.1
      [AssetOp.add ⟨"AAPL", "Apple Inc."⟩, AssetOp.add ⟨"AAPL", "Apple"⟩]⟩

/-- C8: an optimize request with fewer than 2 selected assets is rejected
client-side with the error toast of Optimizer.js line 79 and no
`POST /optimize` request is issued. -/
theorem optimize_rejects_fewer_than_two (selectedAssets : List Asset)
    (assetType startDate endDate rebalanceFreq : String) (riskTolerance : ℚ)
    (h : selectedAssets.length < 2) :
    handleOptimize selectedAssets assetType startDate endDate riskTolerance rebalanceFreq
      = .error "Select at least 2 assets" := by
  unfold handleOptimize
  rw [if_pos h]

/-- Witness for C8: exactly one selected symbol is rejected. -/
theorem optimize_rejects_fewer_than_two_witness :
    handleOptimize [⟨"AAPL", "Apple Inc."⟩] "stock" "2022-01-01" "2025-10-11" (1/2) "daily"
      = .error "Select at least 2 assets" :=
  optimize_rejects_fewer_than_two [⟨"AAPL", "Apple Inc."⟩]
    "stock" "2022-01-01" "2025-10-11" "daily" (1/2) (by decide)

/-- C9: a `POST /backtest` request is issued only when the parsed weight
count equals the parsed symbol count and at least one symbol is present;
otherwise the handler returns early with an error toast (and, in the
source, no state is written before the guards), issuing no request. -/
theorem backtest_request_only_when_counts_match (symbolTokens : List String)
    (weightTokens : List (Option ℚ)) :
    (∀ req, handleRunBacktest symbolTokens weightTokens = .ok req →
        (parsedWeights weightTokens).length = (parsedSymbols symbolTokens).length ∧
        parsedSymbols symbolTokens ≠ []) ∧
    ((parsedWeights weightTokens).length ≠ (parsedSymbols symbolTokens).length ∨
        parsedSymbols symbolTokens = [] →
      ∀ req, handleRunBacktest symbolTokens weightTokens ≠ .ok req) := by
  constructor
  · intro req h
    unfold handleRunBacktest at h
    split_ifs at h with h1 h2 h3
    exact ⟨by omega, fun hnil => h1 (by simp [hnil])⟩
  · intro h req hok
    unfold handleRunBacktest at hok
    split_ifs at hok with h1 h2 h3
    rcases h with h | h
    · omega
    · exact h1 (by simp [h])

/-- Witness for C9: two symbols against a single weight issue no
request. -/
theorem backtest_request_only_when_counts_match_witness :
    (∀ req, handleRunBacktest ["AAPL", "MSFT"] [some (1 : ℚ)] = .ok req →
        (parsedWeights [some (1 : ℚ)]).length = (parsedSymbols ["AAPL", "MSFT"]).length ∧
        parsedSymbols ["AAPL", "MSFT"] ≠ []) ∧
    ((parsedWeights [some (1 : ℚ)]).length = 1 → 1 ≠ 2 →
      ∀ req, handleRunBacktest ["AAPL", "MSFT"] [some (1 : ℚ)] ≠ .ok req) :=
  ⟨(backtest_request_only_when_counts_match ["AAPL", "MSFT"] [some (1 : ℚ)]).1,
    fun _ _ =>
      (backtest_request_only_when_counts_match ["AAPL", "MSFT"] [some (1 : ℚ)]).2
        (Or.inl (by decide))⟩

/-- Counterexample to C3: the backtest form submits a request whose
weights sum to 1.005 — farther than 1e-6 from 1 — because the source guard
(Backtesting page line 34) only rejects when the distance exceeds 0.01. -/
theorem backtest_tolerance_counterexample :
    handleRunBacktest ["A", "B"] [some ((1 : ℚ)/2), some (101/200)]
      = .ok { symbols := ["A", "B"], weights := [("A", 1/2), ("B", 101/200)] } ∧
    ¬(|(parsedWeights [some ((1 : ℚ)/2), some (101/200)]).sum - 1| ≤ 1/1000000) := by
  constructor
  · unfold handleRunBacktest
    rw [if_neg (by decide), if_neg (by decide), if_neg (by
      norm_num [parsedWeights, List.filterMap_cons]
      rw [abs_of_nonneg (by norm_num)]
      norm_num)]
    rfl
  · norm_num [parsedWeights, List.filterMap_cons]
    rw [abs_of_nonneg (by norm_num)]
    norm_num

/-- C3 (amended): a backtest request whose parsed weights do not sum to 1
within tolerance 0.01 is rejected client-side and no request is issued;
every submitted backtest satisfies |Σ weights − 1| ≤ 0.01 at submission
time. -/
theorem backtest_tolerance_one_percent (symbolTokens : List String)
    (weightTokens : List (Option ℚ)) :
    (∀ req, handleRunBacktest symbolTokens weightTokens = .ok req →
        |(parsedWeights weightTokens).sum - 1| ≤ 1 / 100) ∧
    (|(parsedWeights weightTokens).sum - 1| > 1 / 100 →
        ∀ req, handleRunBacktest symbolTokens weightTokens ≠ .ok req) := by
  constructor
  · intro req h
    unfold handleRunBacktest at h
    split_ifs at h with h1 h2 h3
    exact not_lt.1 h3
  · intro hgt req hok
    unfold handleRunBacktest at hok
    split_ifs at hok

/-- Witness for the amended C3 at a concrete accepted submission. -/
theorem backtest_tolerance_one_percent_witness :
    |(parsedWeights [some ((1 : ℚ)/2), some (101/200)]).sum - 1| ≤ 1 / 100 :=
  (backtest_tolerance_one_percent ["A", "B"] [some ((1 : ℚ)/2), some (101/200)]).1
    { symbols := ["A", "B"], weights := [("A", 1/2), ("B", 101/200)] }
    (by
      unfold handleRunBacktest
      rw [if_neg (by decide), if_neg (by decide), if_neg (by
        norm_num [parsedWeights, List.filterMap_cons]
        rw [abs_of_nonneg (by norm_num)]
        norm_num)]
      rfl)

/-- C5: every recommendation emitted by analyze has action "increase"
exactly when the optimal weight exceeds the current weight and "decrease"
otherwise, and its difference field equals |optimal − current| exactly. -/
theorem recommendation_action_difference (perSymbol : List (String × ℚ × ℚ))
    (r : Recommendation) (hr : r ∈ analyzeRecommendations perSymbol) :
    (r.current_weight < r.optimal_weight → r.action = "increase") ∧
    (r.optimal_weight ≤ r.current_weight → r.action = "decrease") ∧
    r.difference = |r.optimal_weight - r.current_weight| := by
  rcases List.mem_map.1 hr with ⟨p, hp, rfl⟩
  simp only [mkRecommendation]
  refine ⟨fun h => ?_, fun h => ?_, trivial⟩
  · rw [if_pos (show p.2.2 > p.2.1 by linarith)]
  · rw [if_neg (show ¬(p.2.2 > p.2.1) from not_lt.2 (by linarith))]

/-- Witness for C5 at a concrete analyze output. -/
theorem recommendation_action_difference_witness :
    ((mkRecommendation "AAPL" (3/10) (1/2)).current_weight
        < (mkRecommendation "AAPL" (3/10) (1/2)).optimal_weight →
      (mkRecommendation "AAPL" (3/10) (1/2)).action = "increase") ∧
    ((mkRecommendation "AAPL" (3/10) (1/2)).optimal_weight
        ≤ (mkRecommendation "AAPL" (3/10) (1/2)).current_weight →
      (mkRecommendation "AAPL" (3/10) (1/2)).action = "decrease") ∧
    (mkRecommendation "AAPL" (3/10) (1/2)).difference
      = |(mkRecommendation "AAPL" (3/10) (1/2)).optimal_weight
          - (mkRecommendation "AAPL" (3/10) (1/2)).current_weight| :=
  recommendation_action_difference [("AAPL", 3/10, 1/2)]
    (mkRecommendation "AAPL" (3/10) (1/2)) (by simp [analyzeRecommendations])

/-- Counterexample to C7: the current_weight field of a recommendation at
the engine boundary is 30 — a percentage-point value outside [0,1] — and
the caller (Portfolio.js line 614) displays it without multiplying by 100,
unlike the return and risk fields. -/
theorem boundary_fraction_counterexample :
    (mkRecommendation "AAPL" (3/10) (1/2)).current_weight = 30 ∧
    ¬((mkRecommendation "AAPL" (3/10) (1/2)).current_weight ≤ 1) ∧
    displayRecCurrentWeight 30 ≠ 30 * 100 := by
  refine ⟨by norm_num [mkRecommendation], by norm_num [mkRecommendation],
    by norm_num [displayRecCurrentWeight]⟩

/-- C7 (amended): return and risk fields cross the engine boundary as
fractions and are scaled by 100 by the caller; the recommendation fields
current_weight, optimal_weight and difference cross the boundary already
in percentage points (weights in [0,100] for weight fractions in [0,1])
and the caller formats them without further scaling. -/
theorem boundary_units (x c o : ℚ) (s : String)
    (hc0 : 0 ≤ c) (hc1 : c ≤ 1) (ho0 : 0 ≤ o) (ho1 : o ≤ 1) :
    displayAnnualizedReturn x = x * 100 ∧
    displayAnnualizedRisk x = x * 100 ∧
    (mkRecommendation s c o).current_weight = 100 * c ∧
    (mkRecommendation s c o).optimal_weight = 100 * o ∧
    0 ≤ (mkRecommendation s c o).current_weight ∧
    (mkRecommendation s c o).current_weight ≤ 100 ∧
    0 ≤ (mkRecommendation s c o).optimal_weight ∧
    (mkRecommendation s c o).optimal_weight ≤ 100 ∧
    displayRecCurrentWeight (mkRecommendation s c o).current_weight
      = (mkRecommendation s c o).current_weight ∧
    displayRecOptimalWeight (mkRecommendation s c o).optimal_weight
      = (mkRecommendation s c o).optimal_weight ∧
    displayRecDifference (mkRecommendation s c o).difference
      = (mkRecommendation s c o).difference := by
  refine ⟨rfl, rfl, rfl, rfl, ?_, ?_, ?_, ?_, rfl, rfl, rfl⟩
  · show (0 : ℚ) ≤ 100 * c
    linarith
  · show (100 : ℚ) * c ≤ 100
    linarith
  · show (0 : ℚ) ≤ 100 * o
    linarith
  · show (100 : ℚ) * o ≤ 100
    linarith

/-- Witness for the amended C7 at concrete boundary values. -/
theorem boundary_units_witness :
    displayAnnualizedReturn (1/50) = (1/50) * 100 ∧
    displayAnnualizedRisk (1/50) = (1/50) * 100 ∧
    (mkRecommendation "AAPL" (3/10) (1/2)).current_weight = 100 * (3/10) ∧
    (mkRecommendation "AAPL" (3/10) (1/2)).optimal_weight = 100 * (1/2) ∧
    0 ≤ (mkRecommendation "AAPL" (3/10) (1/2)).current_weight ∧
    (mkRecommendation "AAPL" (3/10) (1/2)).current_weight ≤ 100 ∧
    0 ≤ (mkRecommendation "AAPL" (3/10) (1/2)).optimal_weight ∧
    (mkRecommendation "AAPL" (3/10) (1/2)).optimal_weight ≤ 100 ∧
    displayRecCurrentWeight (mkRecommendation "AAPL" (3/10) (1/2)).current_weight
      = (mkRecommendation "AAPL" (3/10) (1/2)).current_weight ∧
    displayRecOptimalWeight (mkRecommendation "AAPL" (3/10) (1/2)).optimal_weight
      = (mkRecommendation "AAPL" (3/10) (1/2)).optimal_weight ∧
    displayRecDifference (mkRecommendation "AAPL" (3/10) (1/2)).difference
      = (mkRecommendation "AAPL" (3/10) (1/2)).difference :=
  boundary_units (1/50) (3/10) (1/2) "AAPL" (by norm_num) (by norm_num) (by norm_num)
    (by norm_num)

/-! Helper lemmas for the spec-modelled optimizer. -/

/-- Dividing every element of a list by a constant divides the sum. -/
theorem list_sum_map_div (l : List ℚ) (s : ℚ) :
    (l.map (fun r => r / s)).sum = l.sum / s := by
  induction l with
  | nil => simp
  | cons a t ih => simp [ih, add_div]

/-- The spec-modelled per-asset score is strictly positive for
non-negative risk tolerance. -/
theorem rawScore_pos (t mean : ℚ) (row : List ℚ) (ht : 0 ≤ t) :
    0 < rawScore t mean row := by
  have habs : (0 : ℚ) ≤ (row.map (fun x => |x|)).sum :=
    List.sum_nonneg (fun x hx => by
      rcases List.mem_map.1 hx with ⟨y, _, rfl⟩
      exact abs_nonneg y)
  have hfirst : (0 : ℚ) < 1 / (1 + (row.map (fun x => |x|)).sum) :=
    div_pos one_pos (by linarith)
  have hsecond : (0 : ℚ) ≤ t * riskAversionScale * max mean 0 :=
    mul_nonneg (mul_nonneg ht (by norm_num [riskAversionScale])) (le_max_right mean 0)
  unfold rawScore
  linarith

/-- C1: for every valid optimization request (at least 2 assets,
non-negative risk tolerance) the returned weights sum to 1 within
tolerance 1e-6 (indeed exactly) and every individual weight lies in
[0,1]. -/
theorem optimize_weights_sum_one_and_in_range (t : ℚ) (assets : List (ℚ × List ℚ))
    (ht : 0 ≤ t) (hlen : 2 ≤ assets.length) :
    |(optimizeWeights t assets).sum - 1| ≤ 1/1000000 ∧
    ∀ w ∈ optimizeWeights t assets, 0 ≤ w ∧ w ≤ 1 := by
  have hpos : ∀ x ∈ assets.map (fun a => rawScore t a.1 a.2), 0 < x := by
    intro x hx
    rcases List.mem_map.1 hx with ⟨a, _, rfl⟩
    exact rawScore_pos t a.1 a.2 ht
  have hne : assets.map (fun a => rawScore t a.1 a.2) ≠ [] := by
    intro hcon
    have hl := congrArg List.length hcon
    simp only [List.length_map, List.length_nil] at hl
    omega
  have hsum : 0 < (assets.map (fun a => rawScore t a.1 a.2)).sum :=
    List.sum_pos _ hpos hne
  constructor
  · have h1 : (optimizeWeights t assets).sum = 1 := by
      unfold optimizeWeights
      rw [list_sum_map_div]
      exact div_self (ne_of_gt hsum)
    rw [h1]
    norm_num
  · intro w hw
    unfold optimizeWeights at hw
    rcases List.mem_map.1 hw with ⟨r, hr, rfl⟩
    exact ⟨le_of_lt (div_pos (hpos r hr) hsum),
      (div_le_one hsum).2 (List.single_le_sum (fun x hx => le_of_lt (hpos x hx)) r hr)⟩

/-- Witness for C1 at a concrete two-asset request. -/
theorem optimize_weights_sum_one_and_in_range_witness :
    |(optimizeWeights (1/2) [(1/10, [1, 0]), (2/10, [0, 1])]).sum - 1| ≤ 1/1000000 ∧
    ∀ w ∈ optimizeWeights (1/2) [(1/10, [1, 0]), (2/10, [0, 1])], 0 ≤ w ∧ w ≤ 1 :=
  optimize_weights_sum_one_and_in_range (1/2) [(1/10, [1, 0]), (2/10, [0, 1])]
    (by norm_num) (by decide)

/-- C2: optimize is deterministic — identical inputs give identical
weights — and in the degenerate tie case of two assets with identical
(μ, Σ) rows the two assets receive identical weights, a fixed
deterministic tie-break. -/
theorem optimize_deterministic (t : ℚ) (assets1 assets2 : List (ℚ × List ℚ))
    (heq : assets1 = assets2) (i j : ℕ) (mean : ℚ) (row : List ℚ)
    (hi : assets1[i]? = some (mean, row)) (hj : assets1[j]? = some (mean, row)) :
    optimizeWeights t assets1 = optimizeWeights t assets2 ∧
    (optimizeWeights t assets1)[i]? = (optimizeWeights t assets1)[j]? := by
  subst heq
  refine ⟨rfl, ?_⟩
  unfold optimizeWeights
  simp only [List.getElem?_map, hi, hj]

/-- Witness for C2 at a concrete tie case: two assets with identical
mean and covariance row. -/
theorem optimize_deterministic_witness :
    optimizeWeights (1/3) [((1 : ℚ)/10, [2, 1]), (1/10, [2, 1])]
      = optimizeWeights (1/3) [((1 : ℚ)/10, [2, 1]), (1/10, [2, 1])] ∧
    (optimizeWeights (1/3) [((1 : ℚ)/10, [2, 1]), (1/10, [2, 1])])[0]?
      = (optimizeWeights (1/3) [((1 : ℚ)/10, [2, 1]), (1/10, [2, 1])])[1]? :=
  optimize_deterministic (1/3) [((1 : ℚ)/10, [2, 1]), (1/10, [2, 1])]
    [((1 : ℚ)/10, [2, 1]), (1/10, [2, 1])] rfl 0 1 (1/10) [2, 1] rfl rfl

/-! Helper lemmas for the spec-modelled backtest. -/

/-- The cumulative value path always starts at 1. -/
theorem cumulativeValues_head (returns : List ℚ) :
    (cumulativeValues returns).head? = some 1 := by
  unfold cumulativeValues
  cases returns <;> rfl

/-- The cumulative value path has one entry per return plus the initial
value. -/
theorem cumulativeValues_length (returns : List ℚ) :
    (cumulativeValues returns).length = returns.length + 1 := by
  unfold cumulativeValues
  exact List.length_scanl 1 returns

/-- There is one portfolio return per consecutive pair of aligned
dates. -/
theorem folioReturns_length (weights : List ℚ) (priceSeries : List (List (ℕ × ℚ))) :
    (folioReturns weights priceSeries).length = (alignedDates priceSeries).length - 1 := by
  simp [folioReturns]

/-- C4: every successful backtest returns a cumulative value series whose
first value is exactly 1.0 and whose length equals the number of aligned
dates of the requested range. -/
theorem backtest_initial_value_and_length (weights : List ℚ)
    (priceSeries : List (List (ℕ × ℚ))) (values : List ℚ)
    (h : backtest weights priceSeries = .ok values) :
    values.head? = some 1 ∧ values.length = (alignedDates priceSeries).length := by
  unfold backtest at h
  split_ifs at h with hshort
  have hv : values = cumulativeValues (folioReturns weights priceSeries) := by
    cases h
    rfl
  subst hv
  refine ⟨cumulativeValues_head _, ?_⟩
  rw [cumulativeValues_length, folioReturns_length]
  omega

/-- Two-symbol demonstration price history on two aligned dates. -/
def demoPriceSeries : List (List (ℕ × ℚ)) :=
  [[(0, 1), (1, 2)], [(0, 1), (1, 1)]]

/-- Witness for C4 at a concrete successful backtest. -/
theorem backtest_initial_value_and_length_witness :
    (cumulativeValues (folioReturns [1/2, 1/2] demoPriceSeries)).head? = some 1 ∧
    (cumulativeValues (folioReturns [1/2, 1/2] demoPriceSeries)).length
      = (alignedDates demoPriceSeries).length :=
  backtest_initial_value_and_length [1/2, 1/2] demoPriceSeries
    (cumulativeValues (folioReturns [1/2, 1/2] demoPriceSeries))
    (by
      unfold backtest
      rw [if_neg (by decide)])

/-! Helper lemmas for the spec-modelled best-model selection. -/

/-- Ranking key of a trained model: lexicographically, negated test R²
(so higher R² ranks first), then test MSE, then model name. -/
def modelKey (m : ModelResult) : ℚ ×ₗ (ℚ ×ₗ String) :=
  toLex (-m.test_r2, toLex (m.test_mse, m.name))

/-- The strict comparison agrees with the strict lexicographic key
order. -/
theorem ranksBetter_iff_lt (a b : ModelResult) :
    ranksBetter a b = true ↔ modelKey a < modelKey b := by
  unfold ranksBetter modelKey
  rw [Prod.Lex.lt_iff]
  constructor
  · intro h
    split_ifs at h with h1 h2
    · exact Or.inl (by simp only [decide_eq_true_eq] at h; exact neg_lt_neg h)
    · refine Or.inr ⟨by rw [not_not.1 h1], ?_⟩
      rw [Prod.Lex.lt_iff]
      exact Or.inl (by simpa using h)
    · refine Or.inr ⟨by rw [not_not.1 h1], ?_⟩
      rw [Prod.Lex.lt_iff]
      exact Or.inr ⟨not_not.1 h2, by simpa using h⟩
  · intro h
    rcases h with h | ⟨h1, h2⟩
    · have hlt : b.test_r2 < a.test_r2 := by simpa using h
      rw [if_pos (ne_of_gt hlt)]
      simpa using hlt
    · have hr2 : a.test_r2 = b.test_r2 := by simpa using h1
      rw [Prod.Lex.lt_iff] at h2
      rw [if_neg (not_not.2 hr2)]
      rcases h2 with h3 | ⟨h3, h4⟩
      · have hm : a.test_mse < b.test_mse := by simpa using h3
        rw [if_pos (ne_of_lt hm)]
        simpa using hm
      · have hmse : a.test_mse = b.test_mse := by simpa using h3
        rw [if_neg (not_not.2 hmse)]
        simpa using h4

/-- A failed strict comparison is reversed weak key order. -/
theorem ranksBetter_false_iff (a b : ModelResult) :
    ranksBetter a b = false ↔ modelKey b ≤ modelKey a := by
  rw [← Bool.not_eq_true, ranksBetter_iff_lt, not_lt]

/-- Unfolding equation of the selection step on a present incumbent. -/
theorem selectStep_some (b m : ModelResult) :
    selectStep (some b) m = if ranksBetter m b then some m else some b := rfl

/-- Fold invariant of best-model selection: the result comes from the
incumbent or the remaining list and its key is minimal among them. -/
theorem selectBest_go (l : List ModelResult) :
    ∀ b0 best : ModelResult,
      l.foldl selectStep (some b0) = some best →
      (best = b0 ∨ best ∈ l) ∧ modelKey best ≤ modelKey b0 ∧
        ∀ m ∈ l, modelKey best ≤ modelKey m := by
  induction l with
  | nil =>
      intro b0 best h
      simp only [List.foldl_nil, Option.some.injEq] at h
      subst h
      exact ⟨Or.inl rfl, le_refl _, by simp⟩
  | cons m rest ih =>
      intro b0 best h
      rw [List.foldl_cons, selectStep_some] at h
      split_ifs at h with hcmp
      · obtain ⟨hmem, hle, hall⟩ := ih m best h
        refine ⟨?_, ?_, ?_⟩
        · rcases hmem with rfl | hmem
          · exact Or.inr (List.mem_cons_self _ _)
          · exact Or.inr (List.mem_cons_of_mem _ hmem)
        · exact le_trans hle (le_of_lt ((ranksBetter_iff_lt m b0).1 hcmp))
        · intro x hx
          rcases List.mem_cons.1 hx with rfl | hx
          · exact hle
          · exact hall x hx
      · obtain ⟨hmem, hle, hall⟩ := ih b0 best h
        refine ⟨?_, hle, ?_⟩
        · rcases hmem with rfl | hmem
          · exact Or.inl rfl
          · exact Or.inr (List.mem_cons_of_mem _ hmem)
        · intro x hx
          rcases List.mem_cons.1 hx with rfl | hx
          · exact le_trans hle ((ranksBetter_false_iff x b0).1 (Bool.of_not_eq_true hcmp))
          · exact hall x hx

/-- The selected model is a trained model whose key is minimal. -/
theorem selectBest_spec (results : List ModelResult) (best : ModelResult)
    (h : selectBest results = some best) :
    best ∈ results ∧
    ∀ m ∈ results,
      m.test_r2 < best.test_r2 ∨
      (m.test_r2 = best.test_r2 ∧
        (best.test_mse < m.test_mse ∨
          (best.test_mse = m.test_mse ∧ (best.name < m.name ∨ best.name = m.name)))) := by
  cases results with
  | nil => simp [selectBest] at h
  | cons m0 rest =>
      have h' : List.foldl selectStep (some m0) rest = some best := by
        simpa [selectBest, List.foldl_cons, selectStep] using h
      obtain ⟨hmem, hle0, hall⟩ := selectBest_go rest m0 best h'
      constructor
      · rcases hmem with rfl | hmem
        · exact List.mem_cons_self _ _
        · exact List.mem_cons_of_mem _ hmem
      · intro m hm
        have hkey : modelKey best ≤ modelKey m := by
          rcases List.mem_cons.1 hm with rfl | hm'
          · exact hle0
          · exact hall m hm'
        unfold modelKey at hkey
        rw [Prod.Lex.le_iff] at hkey
        rcases hkey with h1 | ⟨h1, h2⟩
        · exact Or.inl (by simpa using h1)
        · have hr2 : m.test_r2 = best.test_r2 := (neg_inj.1 (by simpa using h1)).symm
          refine Or.inr ⟨hr2, ?_⟩
          rw [Prod.Lex.le_iff] at h2
          rcases h2 with h3 | ⟨h3, h4⟩
          · exact Or.inl (by simpa using h3)
          · exact Or.inr ⟨by simpa using h3, le_iff_lt_or_eq.1 (by simpa using h4)⟩

/-- C6: on completion of a model-training task the state is "completed"
and the designated best model is one of the trained models; every trained
model ranks no higher than it under maximum test R², ties broken by lowest
test MSE and then by lexicographic model name. -/
theorem training_best_model (results : List ModelResult) (best : ModelResult)
    (h : (completeTask results).best_model = some best) :
    (completeTask results).status = "completed" ∧
    best ∈ results ∧
    ∀ m ∈ results,
      m.test_r2 < best.test_r2 ∨
      (m.test_r2 = best.test_r2 ∧
        (best.test_mse < m.test_mse ∨
          (best.test_mse = m.test_mse ∧ (best.name < m.name ∨ best.name = m.name)))) := by
  obtain ⟨h1, h2⟩ := selectBest_spec results best h
  exact ⟨rfl, h1, h2⟩

/-- Witness for C6 at a concrete completed task of two models. -/
theorem training_best_model_witness :
    (completeTask [⟨"Linear Regression", 1, 2, 1⟩, ⟨"Random Forest", 2, 1, 1⟩]).status
      = "completed" ∧
    (⟨"Random Forest", 2, 1, 1⟩ : ModelResult)
      ∈ [(⟨"Linear Regression", 1, 2, 1⟩ : ModelResult), ⟨"Random Forest", 2, 1, 1⟩] ∧
    ∀ m ∈ [(⟨"Linear Regression", 1, 2, 1⟩ : ModelResult), ⟨"Random Forest", 2, 1, 1⟩],
      m.test_r2 < (⟨"Random Forest", 2, 1, 1⟩ : ModelResult).test_r2 ∨
      (m.test_r2 = (⟨"Random Forest", 2, 1, 1⟩ : ModelResult).test_r2 ∧
        ((⟨"Random Forest", 2, 1, 1⟩ : ModelResult).test_mse < m.test_mse ∨
          ((⟨"Random Forest", 2, 1, 1⟩ : ModelResult).test_mse = m.test_mse ∧
            ((⟨"Random Forest", 2, 1, 1⟩ : ModelResult).name < m.name ∨
              (⟨"Random Forest", 2, 1, 1⟩ : ModelResult).name = m.name)))) :=
  training_best_model [⟨"Linear Regression", 1, 2, 1⟩, ⟨"Random Forest", 2, 1, 1⟩]
    ⟨"Random Forest", 2, 1, 1⟩ rfl
